import Mathlib

/-!
Shallow embedding of the ITU-T P.56 speech voltmeter implementation
(`svp56.py`: `SVP56_state`, `bin_interp`, `init_speech_voltmeter`,
`speech_voltmeter`) and of the output quantization step of its demo driver
(`sv56demo.py`), together with theorems settling the specification claims.

Modelling conventions.

Numbers: Python floats are modelled as exact rationals (`ℚ`); Python ints as
`ℤ` / `ℕ`.  Transcendental library calls (`math.exp`, `math.log10`,
`math.pow(10.0, ·)`) have no exact rational counterpart, so they are
abstracted into a parameter record `RealFuns`; every theorem below is
quantified over (or instantiated at) such a record, hence holds for any
implementation of those functions, in particular the floating-point one.

Failure: Python runtime exceptions (ZeroDivisionError on `x / 0`,
IndexError on out-of-range list reads) are modelled with `Except PyErr`.
The unbounded `while` loop of `bin_interp` is modelled with an explicit
fuel parameter; exhausting the fuel (constructor `PyErr.loopLimit`) models
a loop that has not terminated within that many iterations.

Source fidelity: the Python file is a transcription of the well-known C
original and contains identifier typos that would make it fail to load
(duplicated parameter name in `bin_interp`'s signature, `Marnig` for
`Margin`, `interno` for `iterno`, `math.abs` for `math.fabs`, bare `T`,
`M`, `MIN_LOG_OFFSET` for the `self.` attributes, `f.max` for `self.max`,
`sqlf.n` for `self.n`, a missing colon).  Those pure name/syntax slips are
repaired here, each noted at the definition it concerns.  Semantically
meaningful content is kept exactly as written, in particular:
`tol *= 1.0` in `bin_interp` (the comment announces a relaxation by 10),
the effect-free statement in the silence-margin branch of
`speech_voltmeter` (a `return` is missing), the attribute typo `DCleven`
for `DClevel`, the hangover counters initialized to `I` rather than 0,
the threshold ladder stored in increasing index order, and the absence of
clipping in the demo's output conversion.
-/

namespace SVP56

/-- Python runtime failure modes reached by this code, plus `loopLimit`,
which models a `while` loop still running after the given fuel. -/
inductive PyErr where
  | zeroDivision
  | indexError
  | loopLimit
deriving DecidableEq

/-- Abstraction of the floating-point transcendental functions used by the
code: `exp x` models `math.exp(x)`, `log10 x` models `math.log10(x)`, and
`pow10 x` models `math.pow(10.0, x)`. -/
structure RealFuns where
  exp : ℚ → ℚ
  log10 : ℚ → ℚ
  pow10 : ℚ → ℚ

/-- Python `math.fabs`. -/
def fabs (x : ℚ) : ℚ := if x < 0 then -x else x

/-- Python float division: raises ZeroDivisionError on a zero denominator. -/
def pyDiv (x y : ℚ) : Except PyErr ℚ :=
  if y = 0 then .error .zeroDivision else .ok (x / y)

/-- Python list read `l[i]` for a non-negative index: IndexError when out of
range. -/
def listGet {α : Type} (l : List α) (i : ℕ) : Except PyErr α :=
  match l[i]? with
  | some v => .ok v
  | none => .error .indexError

/-- State variables of the speech voltmeter, from `SVP56_state.__init__`
(fields `f, a, c, hang, n, s, sq, p, q, max, refdB, rmsdB, maxP, maxN,
DClevel, ActivityFactor`).  The extra field `DCleven` models the stray
attribute silently created by the assignment `self.DCleven = ...` in
`speech_voltmeter` (a typo for `DClevel`); Python materializes it on first
assignment, here it simply starts at 0. -/
structure SVP56_state where
  f : ℚ
  a : List ℤ
  c : List ℚ
  hang : List ℤ
  n : ℕ
  s : ℚ
  sq : ℚ
  p : ℚ
  q : ℚ
  max : ℚ
  refdB : ℚ
  rmsdB : ℚ
  maxP : ℚ
  maxN : ℚ
  DClevel : ℚ
  DCleven : ℚ
  ActivityFactor : ℚ
deriving DecidableEq

/-- Constant `self.T = 0.03` (seconds). -/
def T : ℚ := 3/100

/-- Constant `self.H = 0.20` (seconds). -/
def H : ℚ := 1/5

/-- Constant `self.M = 15.9` (dB margin). -/
def M : ℚ := 159/10

/-- Constant `self.THRES_NO = 15`. -/
def THRES_NO : ℕ := 15

/-- Constant `self.MIN_LOG_OFFSET = 1e-20`. -/
def MIN_LOG_OFFSET : ℚ := 1/10^20

/-- The state as built by `SVP56_state.__init__`: empty count/threshold
lists and zeroed scalars. -/
def freshState : SVP56_state :=
  { f := 0, a := [], c := [], hang := [], n := 0, s := 0, sq := 0, p := 0,
    q := 0, max := 0, refdB := 0, rmsdB := 0, maxP := 0, maxN := 0,
    DClevel := 0, DCleven := 0, ActivityFactor := 0 }

/-! ### `bin_interp`

The Python signature `def bin_interp(self, upcount, lwcount, upcount,
lwthr, Margin, tol)` repeats `upcount` where the body and the call site
require `upthr`; the parameter list used here is
`(upcount, lwcount, upthr, lwthr, Margin, tol)`.  The body's `math.abs`
is read as `math.fabs`, `Marnig` as `Margin`, and `interno = 1` as
`iterno = 1` (the loop increments `iterno`).  The C-style loop header
`while (diff = (midcount - midthr) - Margin, math.fabs(diff)) > tol:` is
read as: recompute `diff` from the current mid point, loop while
`fabs diff > tol`.  The statement `tol *= 1.0` is kept exactly as written
(`st.tol * 1`). -/

/-- Locals of `bin_interp`'s while loop. -/
structure BIState where
  upcount : ℚ
  lwcount : ℚ
  upthr : ℚ
  lwthr : ℚ
  midcount : ℚ
  midthr : ℚ
  margin : ℚ
  tol : ℚ
  iterno : ℕ
deriving DecidableEq

/-- Loop guard of `bin_interp`: `math.fabs(diff) > tol` with
`diff = (midcount - midthr) - Margin`. -/
def biGuard (st : BIState) : Prop :=
  st.tol < fabs (st.midcount - st.midthr - st.margin)

instance (st : BIState) : Decidable (biGuard st) := by
  unfold biGuard; infer_instance

/-- One execution of the loop body of `bin_interp`: increment `iterno`,
execute `tol *= 1.0` once more than 20 iterations have run (kept exactly
as written in the source, whose comment announces a relaxation by 10),
then narrow the bracket on the side indicated by the sign of `diff`. -/
def biBody (st : BIState) : BIState :=
  let diff := st.midcount - st.midthr - st.margin
  let iterno := st.iterno + 1
  let tol := if 20 < iterno then st.tol * 1 else st.tol
  if tol < diff then
    let midcount := (st.upcount + st.midcount) / 2
    let midthr := (st.upthr + st.midthr) / 2
    { st with iterno := iterno, tol := tol, midcount := midcount,
              midthr := midthr, lwcount := midcount, lwthr := midthr }
  else if diff < -1 * tol then
    let midcount := (st.midcount + st.lwcount) / 2
    let midthr := (st.midthr + st.lwthr) / 2
    { st with iterno := iterno, tol := tol, midcount := midcount,
              midthr := midthr, upcount := midcount, upthr := midthr }
  else
    { st with iterno := iterno, tol := tol }

/-- The while loop of `bin_interp`, with fuel: `none` models a loop still
running after `fuel` iterations of the body. -/
def biLoop : ℕ → BIState → Option ℚ
  | 0, st => if biGuard st then none else some st.midcount
  | fuel+1, st => if biGuard st then biLoop fuel (biBody st) else some st.midcount

/-- Loop state on entry: `midcount`, `midthr` are the midpoints of the
initial bounds and `iterno = 1`. -/
def biStart (upcount lwcount upthr lwthr Margin tol : ℚ) : BIState :=
  { upcount := upcount, lwcount := lwcount, upthr := upthr, lwthr := lwthr,
    midcount := (upcount + lwcount) / 2, midthr := (upthr + lwthr) / 2,
    margin := Margin, tol := tol, iterno := 1 }

/-- Function `bin_interp`: normalize `tol` to non-negative, accept an endpoint whose
difference is already within tolerance, otherwise bisect. -/
def bin_interp (fuel : ℕ) (upcount lwcount upthr lwthr Margin tol : ℚ) :
    Option ℚ :=
  let tol := if tol < 0 then -1 * tol else tol
  if fabs (upcount - upthr - Margin) < tol then some upcount
  else if fabs (lwcount - lwthr - Margin) < tol then some lwcount
  else biLoop fuel (biStart upcount lwcount upthr lwthr Margin tol)

/-! ### `init_speech_voltmeter` -/

/-- The threshold-vector loop of `init_speech_voltmeter`:
`x = 0.5; for j in 1..THRES_NO: c.insert(0, x); x /= 2.0`.  Each pass
prepends the current `x` to the existing list. -/
def ladder_go : ℕ → ℚ → List ℚ → List ℚ
  | 0, _, c => c
  | k+1, x, c => ladder_go k (x / 2) (x :: c)

/-- The activity/hangover loop of `init_speech_voltmeter`:
`for j in 0..THRES_NO-1: a.append(0); hang.append(I)`. -/
def init_counts : ℕ → List ℤ → List ℤ → ℤ → List ℤ × List ℤ
  | 0, a, hang, _ => (a, hang)
  | k+1, a, hang, I => init_counts k (a ++ [0]) (hang ++ [I]) I

/-- Function `init_speech_voltmeter(state, sampl_freq)`: bind the sampling
frequency, compute `I = math.floor(H * f + 0.5)`, extend the threshold,
activity and hangover lists (the source inserts/appends into the lists
already present on the state object), and zero the scalar statistics. -/
def init_speech_voltmeter (st : SVP56_state) (sampl_freq : ℚ) : SVP56_state :=
  let f := sampl_freq
  let I : ℤ := ⌊H * f + 1/2⌋
  let c := ladder_go THRES_NO (1/2) st.c
  let ah := init_counts THRES_NO st.a st.hang I
  { st with f := f, c := c, a := ah.1, hang := ah.2,
            s := 0, sq := 0, n := 0, p := 0, q := 0,
            max := 0, maxP := -32768, maxN := 32767, refdB := 0 }

/-- A state initialized once from fresh, as the demo driver does. -/
def initState (sampl_freq : ℚ) : SVP56_state :=
  init_speech_voltmeter freshState sampl_freq

/-- The threshold list produced by one initialization: `c[0] = 2 ^ (-15)`
up to `c[14] = 2 ^ (-1)`, increasing with the index. -/
def ladderList : List ℚ :=
  [1/32768, 1/16384, 1/8192, 1/4096, 1/2048, 1/1024, 1/512, 1/256,
   1/128, 1/64, 1/32, 1/16, 1/8, 1/4, 1/2]

/-! ### `speech_voltmeter`: per-sample accumulation -/

/-- Body of the threshold loop, for one index `j` (lines applying the
threshold bank to the envelope `q`).  The source has two consecutive
`if` statements whose guards `q >= c[j]` and `q < c[j]` are mutually
exclusive, so they are rendered as an if/else chain; all three lists are
read at `j` up front (IndexError exactly when `j` is out of range, as in
the source for states whose three lists have equal length). -/
def threshold_step (I : ℤ) (st : SVP56_state) (j : ℕ) :
    Except PyErr SVP56_state :=
  match listGet st.c j, listGet st.a j, listGet st.hang j with
  | .ok cj, .ok aj, .ok hj =>
    if cj ≤ st.q then
      .ok { st with a := st.a.set j (aj + 1), hang := st.hang.set j 0 }
    else if hj < I then
      .ok { st with a := st.a.set j (aj + 1), hang := st.hang.set j (hj + 1) }
    else
      .ok st
  | _, _, _ => .error .indexError

/-- Loop `for j in range(THRES_NO): ...` over the remaining indices. -/
def threshold_go (I : ℤ) : List ℕ → SVP56_state → Except PyErr SVP56_state
  | [], st => .ok st
  | j :: js, st =>
    match threshold_step I st j with
    | .error e => .error e
    | .ok st1 => threshold_go I js st1

/-- One pass of the per-sample statistics loop of `speech_voltmeter`:
extreme tracking (the source's `f.max`, `f.maxP`, `f.maxN` are read as
`self.max`, `self.maxP`, `self.maxN`), Process 1 (running sums), Process 2
(the two cascaded leaky integrators `p`, `q`) and the threshold bank. -/
def accumulate_sample (g : ℚ) (I : ℤ) (st : SVP56_state) (x : ℚ) :
    Except PyErr SVP56_state :=
  let st := if st.max < fabs x then { st with max := fabs x } else st
  let st := if st.maxP < x then { st with maxP := x } else st
  let st := if x < st.maxN then { st with maxN := x } else st
  let st := { st with sq := st.sq + x * x, s := st.s + x, n := st.n + 1 }
  let p := g * st.p + (1 - g) * fabs x
  let q := g * st.q + (1 - g) * p
  let st := { st with p := p, q := q }
  threshold_go I (List.range THRES_NO) st

/-- The whole `for k in range(len(buffer))` loop of `speech_voltmeter`:
the per-sample accumulation phase. -/
def accumulate (g : ℚ) (I : ℤ) : SVP56_state → List ℚ → Except PyErr SVP56_state
  | st, [] => .ok st
  | st, x :: xs =>
    match accumulate_sample g I st x with
    | .error e => .error e
    | .ok st1 => accumulate g I st1 xs

/-! ### `speech_voltmeter`: estimation phase -/

/-- The bracket-scan loop (`for j in range(1, THRES_NO)`), over the
remaining indices, carrying `LongTermLevel` for the activity-factor
update; returns the final state and `ActiveSpeechLevel`.  The bare `M` at
the `bin_interp` call site is read as `self.M`, and the bare
`MIN_LOG_OFFSET` occurrences as `self.MIN_LOG_OFFSET`. -/
def scan (R : RealFuns) (fuel : ℕ) (LTL : ℚ) :
    List ℕ → SVP56_state → Except PyErr (SVP56_state × ℚ)
  | [], st => .ok (st, -100)
  | j :: js, st =>
    match listGet st.a j with
    | .error e => .error e
    | .ok aj =>
      if aj = 0 then scan R fuel LTL js st
      else
        match pyDiv st.sq (aj : ℚ) with
        | .error e => .error e
        | .ok rj =>
          let AdB := 10 * R.log10 (rj + MIN_LOG_OFFSET)
          match listGet st.c j with
          | .error e => .error e
          | .ok cj =>
            let CdB := 20 * R.log10 (cj + MIN_LOG_OFFSET)
            if AdB - CdB ≤ M then
              match listGet st.a (j - 1) with
              | .error e => .error e
              | .ok am =>
                match pyDiv st.sq (am : ℚ) with
                | .error e => .error e
                | .ok rm =>
                  let AmdB := 10 * R.log10 (rm + MIN_LOG_OFFSET)
                  match listGet st.c (j - 1) with
                  | .error e => .error e
                  | .ok cm =>
                    let CmdB := 20 * R.log10 (cm + MIN_LOG_OFFSET)
                    match bin_interp fuel AdB AmdB CdB CmdB M (1/2) with
                    | none => .error .loopLimit
                    | some ASL =>
                      .ok ({ st with
                              ActivityFactor := R.pow10 ((LTL - ASL) / 10) },
                           ASL)
            else scan R fuel LTL js st

/-- Statistics and estimation part of `speech_voltmeter` (everything after
the sample loop).  Faithful points to note: the assignment
`self.DCleven = self.s / self.n` writes the misspelled attribute
`DCleven`, leaving `DClevel` untouched; `sqlf.n` is read as `self.n`; and
the silence-margin test `if AdB - CdB < self.M:` has as its whole body the
bare expression `ActiveSpeechLevel`, which is effect-free, so the branch
does nothing and control falls through to the bracket scan (the C original
returns the silence value here). -/
def estimation_phase (R : RealFuns) (fuel : ℕ) (st0 : SVP56_state) :
    Except PyErr (SVP56_state × ℚ) :=
  match pyDiv st0.s (st0.n : ℚ) with
  | .error e => .error e
  | .ok dc =>
    let st := { st0 with DCleven := dc }
    match pyDiv st.sq (st.n : ℚ) with
    | .error e => .error e
    | .ok msq =>
      let LTL := 10 * R.log10 (msq + MIN_LOG_OFFSET)
      let st := { st with rmsdB := LTL - st.refdB }
      let st := { st with ActivityFactor := 0 }
      match listGet st.a 0 with
      | .error e => .error e
      | .ok a0 =>
        if a0 = 0 then .ok (st, -100)
        else
          match pyDiv st.sq (a0 : ℚ) with
          | .error e => .error e
          | .ok r0 =>
            let AdB := 10 * R.log10 (r0 + MIN_LOG_OFFSET)
            match listGet st.c 0 with
            | .error e => .error e
            | .ok c0 =>
              let CdB := 20 * R.log10 c0
              let _ := AdB - CdB < M
              scan R fuel LTL (List.range' 1 14) st

/-- Function `speech_voltmeter(state, buffer)`: `I = floor(H * f + 0.5)`,
`g = exp(-1.0 / (f * T))` (the bare `T` is read as `self.T`), then the
accumulation loop followed by the estimation phase. -/
def speech_voltmeter (R : RealFuns) (fuel : ℕ) (st : SVP56_state)
    (buffer : List ℚ) : Except PyErr (SVP56_state × ℚ) :=
  let I : ℤ := ⌊H * st.f + 1/2⌋
  match pyDiv (-1) (st.f * T) with
  | .error e => .error e
  | .ok earg =>
    let g := R.exp earg
    match accumulate g I st buffer with
    | .error e => .error e
    | .ok st1 => estimation_phase R fuel st1

/-! ### Named subexpressions of the estimation phase, for the statements -/

/-- Value `AdB` as computed at threshold index `j` in the bracket scan:
`10 * log10(sq / a[j] + MIN_LOG_OFFSET)` (meaningful when `a[j]` exists
and is non-zero). -/
def AdBat (R : RealFuns) (st : SVP56_state) (j : ℕ) : ℚ :=
  10 * R.log10 (st.sq / ((st.a.getD j 0 : ℤ) : ℚ) + MIN_LOG_OFFSET)

/-- Value `CdB` as computed at threshold index `j` in the bracket scan:
`20 * log10(c[j] + MIN_LOG_OFFSET)`. -/
def CdBat (R : RealFuns) (st : SVP56_state) (j : ℕ) : ℚ :=
  20 * R.log10 (st.c.getD j 0 + MIN_LOG_OFFSET)

/-- Value `AdB` of the silence-margin test (line computing
`10 * log10(sq / a[0] + MIN_LOG_OFFSET)`). -/
def AdB0at (R : RealFuns) (st : SVP56_state) : ℚ :=
  10 * R.log10 (st.sq / ((st.a.getD 0 0 : ℤ) : ℚ) + MIN_LOG_OFFSET)

/-- Value `CdB` of the silence-margin test: `20 * log10(c[0])` (this one has no
`MIN_LOG_OFFSET`, as in the source). -/
def CdB0at (R : RealFuns) (st : SVP56_state) : ℚ :=
  20 * R.log10 (st.c.getD 0 0)

/-- The silence-margin condition `AdB - CdB < self.M` tested (with no
effect) by the estimation phase. -/
def marginCond (R : RealFuns) (st : SVP56_state) : Prop :=
  AdB0at R st - CdB0at R st < M

instance (R : RealFuns) (st : SVP56_state) : Decidable (marginCond R st) := by
  unfold marginCond; infer_instance

/-- Whether the bracket scan stops at index `j`: `a[j] != 0` and
`AdB - CdB <= M` there. -/
def bracketHit (R : RealFuns) (st : SVP56_state) (j : ℕ) : Bool :=
  decide (st.a.getD j 0 ≠ 0 ∧ AdBat R st j - CdBat R st j ≤ M)

/-- First index in `1..14` at which the bracket scan stops, if any. -/
def firstBracket (R : RealFuns) (st : SVP56_state) : Option ℕ :=
  (List.range' 1 14).find? (bracketHit R st)

/-! ### Output quantization of the demo driver (`sv56demo.py`)

The equalization block computes `Fo = Fi * factor` and then
`(Fo * np.iinfo(np.int16).max).astype(np.int16)`: a scale by
`32767 = 2 ^ 15 - 1`, truncation toward zero, and a C-style cast to
`int16`.  NumPy's cast of an out-of-range float is a C conversion; on this
platform it wraps modulo `2 ^ 16` (two's complement), which is what
`int16_of_cast` models.  No clipping is performed, although the file's
header comment promises "hard-clipping of data outside the range
-32768..+32767". -/

/-- Truncation toward zero of a rational, as in a float-to-int C cast. -/
def truncQ (x : ℚ) : ℤ := if 0 ≤ x then ⌊x⌋ else -⌊-x⌋

/-- Two's-complement wraparound of an integer into the `int16` range. -/
def int16_of_cast (z : ℤ) : ℤ := (z + 2^15) % 2^16 - 2^15

/-- The demo's output conversion, from `Fo = Fi * factor;
Fo = (Fo * np.iinfo(np.int16).max).astype(np.int16)`. -/
def quantize_demo (factor : ℚ) (samples : List ℚ) : List ℤ :=
  (samples.map (fun x => x * factor)).map
    (fun x => int16_of_cast (truncQ (x * 32767)))

/-- Modelled from the spec's words for comparison (claim C9): scale each
sample by `2 ^ (bitResolution - 1)`, truncate toward zero, then hard-clip
into `[-2 ^ (bitResolution - 1), 2 ^ (bitResolution - 1) - 1]`. -/
def quantize_claim (bits : ℕ) (samples : List ℚ) : List ℤ :=
  samples.map (fun x =>
    max (-(2 ^ (bits - 1) : ℤ)) (min (truncQ (x * 2 ^ (bits - 1))) (2 ^ (bits - 1) - 1)))

/-! ### Concrete accumulated states and math-library valuations

`stAcc` is a plausible accumulated state: thresholds and hangover counters
as installed by `init_speech_voltmeter` at 16 kHz, 400 samples seen, total
square sum 3, the envelope having crossed threshold 0 (200 counted
samples) and threshold 1 (100 counted samples) only.  The `RealFuns`
records below give `log10` explicit rational values at exactly the inputs
the estimation phase feeds it on `stAcc` (defaulting to 0 elsewhere), so
that runs of the estimation phase can be evaluated in closed form. -/

/-- A concrete accumulated state used to exercise the estimation phase. -/
def stAcc : SVP56_state :=
  { f := 16000, a := [200, 100, 0, 0, 0, 0, 0, 0, 0, 0, 0, 0, 0, 0, 0],
    c := ladderList, hang := List.replicate 15 3200, n := 400, s := 0,
    sq := 3, p := 0, q := 0, max := 0, refdB := 0, rmsdB := 0,
    maxP := -32768, maxN := 32767, DClevel := 0, DCleven := 0,
    ActivityFactor := 0 }

/-- Math-library valuation under which `stAcc` satisfies the silence
margin test at index 0 while index 1 still brackets: `log10` values chosen
so that `A0dB = -75`, `C0dB = -90` (margin 15 < 15.9), `AdB_1 = -70`,
`CdB_1 = -85.7` (difference 15.7, inside the margin and within the 0.5
tolerance of it). -/
def RC3 : RealFuns :=
  { exp := fun _ => 0
    pow10 := fun _ => 0
    log10 := fun x =>
      if x = 3/200 + 1/10^20 then -15/2
      else if x = 3/100 + 1/10^20 then -7
      else if x = 1/32768 then -9/2
      else if x = 1/32768 + 1/10^20 then -9/2
      else if x = 1/16384 + 1/10^20 then -857/200
      else 0 }

/-- Math-library valuation under which `stAcc` is non-silent and the scan
stops at index 1 with a genuine bracket: `AdB_1 = -68.9`, `CdB_1 = -84.2`
(difference 15.3, margin met with slack 0.6 beyond the 0.5 tolerance),
`AdB_0 = -71.1`, `CdB_0 = -90` (difference 18.9, above the margin). -/
def RC5 : RealFuns :=
  { exp := fun _ => 0
    pow10 := fun _ => 0
    log10 := fun x =>
      if x = 3/200 + 1/10^20 then -711/100
      else if x = 3/100 + 1/10^20 then -689/100
      else if x = 1/32768 then -9/2
      else if x = 1/32768 + 1/10^20 then -9/2
      else if x = 1/16384 + 1/10^20 then -421/100
      else 0 }

end SVP56

namespace SVP56

/-! ## Theorems -/

set_option maxRecDepth 8000
set_option maxHeartbeats 2000000

/-- Helper: the threshold list installed by initialization. -/
theorem initState_c (f : ℚ) : (initState f).c = ladderList := by
  simp only [initState, init_speech_voltmeter, freshState]
  norm_num [ladder_go, THRES_NO, ladderList]

/-- Helper: one pass of `bin_interp`'s loop body leaves `tol` unchanged,
since the relaxation statement multiplies it by 1. -/
theorem biBody_tol (st : BIState) : (biBody st).tol = st.tol := by
  simp only [biBody]
  split_ifs <;> simp

/-- Helper: `tol` is unchanged by any number of loop body iterations. -/
theorem biBody_iterate_tol (st : BIState) (n : ℕ) :
    (biBody^[n] st).tol = st.tol := by
  induction n with
  | zero => rfl
  | succ k ih => rw [Function.iterate_succ_apply', biBody_tol, ih]

/-- C1: the claim reads `bin_interp`'s guard as "after 20 iterations the
tolerance is multiplied by a factor strictly greater than 1, so the loop
runs at most 20 core iterations plus one relaxation pass".  The source
executes `tol *= 1.0`, so the tolerance is never changed in any number of
iterations, and on the valid bracket `(upcount, lwcount, upthr, lwthr,
Margin, tol) = (-1, 2 ^ 24, 0, 0, 0, 1/2)` (endpoint differences of
opposite sign, neither within tolerance) the loop is still running after
22 body iterations and only converges given 30 iterations of fuel. -/
theorem C1_tol_relaxation_is_noop :
    (∀ (st : BIState) (n : ℕ), (biBody^[n] st).tol = st.tol) ∧
    (((-1 : ℚ) - 0 - 0) * ((2 ^ 24 : ℚ) - 0 - 0) < 0) ∧
    bin_interp 22 (-1) (2 ^ 24) 0 0 0 (1/2) = none ∧
    (bin_interp 30 (-1) (2 ^ 24) 0 0 0 (1/2)).isSome = true := by
  refine ⟨biBody_iterate_tol, by norm_num, ?_, ?_⟩
  · norm_num [bin_interp, biStart, biLoop, biBody, biGuard, fabs]
  · norm_num [bin_interp, biStart, biLoop, biBody, biGuard, fabs]

/-- C6 counterexample: after initialization the threshold sequence is not
strictly decreasing by index; index 0 holds the smallest value and index 1
is strictly larger. -/
theorem C6_counterexample :
    (initState 16000).c.getD 0 0 = 1/32768 ∧
    (initState 16000).c.getD 1 0 = 1/16384 ∧
    ¬ ((initState 16000).c.getD 1 0 < (initState 16000).c.getD 0 0) ∧
    (initState 16000).c.getD 0 0 < (initState 16000).c.getD 1 0 := by
  rw [initState_c]
  norm_num [ladderList]

/-- C6 (amended): after one initialization of a fresh state the thresholds
are exactly 15 values forming a geometric ladder in which each value is
half the next one (each entry is double the previous entry by index),
index 0 holding the lowest threshold and the sequence being strictly
increasing by index. -/
theorem C6_thresholds_ladder :
    (∀ f : ℚ, (initState f).c = ladderList) ∧
    ladderList.length = 15 ∧
    (∀ i : ℕ, i + 1 < 15 →
      ladderList.getD i 0 * 2 = ladderList.getD (i + 1) 0 ∧
      ladderList.getD i 0 < ladderList.getD (i + 1) 0) ∧
    (∀ i : ℕ, i < 15 → ladderList.getD 0 0 ≤ ladderList.getD i 0) := by
  refine ⟨initState_c, rfl, ?_, ?_⟩
  · intro i hi
    have hi2 : i < 14 := by omega
    interval_cases i <;> constructor <;> norm_num [ladderList]
  · intro i hi
    interval_cases i <;> norm_num [ladderList]

/-- C6 witness: the amended ladder facts at concrete indices. -/
theorem C6_witness :
    (initState 16000).c = ladderList ∧
    (ladderList.getD 0 0 * 2 = ladderList.getD 1 0 ∧
      ladderList.getD 0 0 < ladderList.getD 1 0) ∧
    ladderList.getD 0 0 ≤ ladderList.getD 3 0 :=
  ⟨C6_thresholds_ladder.1 16000,
   C6_thresholds_ladder.2.2.1 0 (by norm_num),
   C6_thresholds_ladder.2.2.2 3 (by norm_num)⟩

/-- C7 counterexample: initialization does not zero the hangover
counters; at a 16 kHz sampling rate every hangover entry starts at
`I = floor(0.2 * 16000 + 0.5) = 3200`. -/
theorem C7_counterexample :
    (initState 16000).hang.getD 0 0 = 3200 ∧ ((3200 : ℤ) ≠ 0) := by
  constructor
  · show ((List.replicate 15 ((⌊H * (16000 : ℚ) + 1/2⌋ : ℤ)) : List ℤ)).getD 0 0 = 3200
    norm_num [H]
  · norm_num

/-- C7 (amended): initialization binds the sampling rate, installs the
threshold ladder, zeroes every activity count and the scalar accumulators
(`n`, `s`, `sq` and both integrator states `p`, `q`), and sets every
hangover counter to `I = floor(H * sampleRate + 0.5)` (not 0). -/
theorem C7_init_state (f : ℚ) :
    (initState f).f = f ∧
    (initState f).a = List.replicate 15 0 ∧
    (initState f).hang = List.replicate 15 (⌊H * f + 1/2⌋ : ℤ) ∧
    (initState f).c = ladderList ∧
    (initState f).n = 0 ∧ (initState f).s = 0 ∧ (initState f).sq = 0 ∧
    (initState f).p = 0 ∧ (initState f).q = 0 :=
  ⟨rfl, rfl, rfl, initState_c f, rfl, rfl, rfl, rfl, rfl⟩

/-- C9: the demo's output conversion scales by `32767 = 2 ^ 15 - 1` (not
`2 ^ 15`), truncates toward zero, and casts to `int16` with wraparound
instead of the hard-clipping promised by the file's own header comment:
an overdriven sample of value 2.0 wraps to -2 where the claimed
truncate-then-clip pipeline yields 32767, and a sample of value 0.5 maps
to 16383 where the claimed `2 ^ 15` scale yields 16384. -/
theorem C9_no_clipping_eval :
    quantize_demo 1 [2] = [-2] ∧
    quantize_claim 16 [2] = [32767] ∧
    quantize_demo 1 [1/2] = [16383] ∧
    quantize_claim 16 [1/2] = [16384] ∧
    ((-2 : ℤ) ≠ 32767) := by
  refine ⟨?_, ?_, ?_, ?_, by norm_num⟩ <;>
    norm_num [quantize_demo, quantize_claim, truncQ, int16_of_cast]

/-- Helper: the threshold loop of initialization adds 15 entries to the
front of whatever list is already there. -/
theorem ladder_go_length : ∀ (k : ℕ) (x : ℚ) (c : List ℚ),
    (ladder_go k x c).length = c.length + k := by
  intro k
  induction k with
  | zero => intro x c; rfl
  | succ m ih =>
    intro x c
    rw [ladder_go, ih]
    simp only [List.length_cons]
    omega

/-- Helper: the count loop of initialization appends `k` entries to each
of the two lists it is given. -/
theorem init_counts_length : ∀ (k : ℕ) (a hang : List ℤ) (I : ℤ),
    (init_counts k a hang I).1.length = a.length + k ∧
    (init_counts k a hang I).2.length = hang.length + k := by
  intro k
  induction k with
  | zero => intro a hang I; exact ⟨rfl, rfl⟩
  | succ m ih =>
    intro a hang I
    rw [init_counts]
    refine ⟨((ih _ _ _).1).trans ?_, ((ih _ _ _).2).trans ?_⟩ <;>
      simp only [List.length_append, List.length_singleton] <;> omega

/-- Helper: each initialization call grows all three per-threshold lists
by 15 entries. -/
theorem init_speech_voltmeter_lengths (st : SVP56_state) (f : ℚ) :
    (init_speech_voltmeter st f).a.length = st.a.length + 15 ∧
    (init_speech_voltmeter st f).c.length = st.c.length + 15 ∧
    (init_speech_voltmeter st f).hang.length = st.hang.length + 15 := by
  simp only [init_speech_voltmeter]
  exact ⟨(init_counts_length THRES_NO st.a st.hang _).1,
         ladder_go_length THRES_NO (1/2) st.c,
         (init_counts_length THRES_NO st.a st.hang _).2⟩

/-- C3: the claim says the estimator returns Silence, without proceeding
to the bracket scan, whenever `activityCounts[0] > 0` but
`A0dB - C0dB < M`.  In the source the body of that test is the bare,
effect-free expression `ActiveSpeechLevel` (the `return` of the C
original was dropped), so control falls through to the bracket scan: on
the accumulated state `stAcc` under the math-library valuation `RC3`,
`a[0] = 200 > 0` and `A0dB - C0dB = 15 < M = 15.9` hold, yet the estimator
proceeds and returns the interpolated level -70, not the Silence sentinel
-100. -/
theorem C3_margin_check_falls_through :
    stAcc.a.getD 0 0 ≠ 0 ∧
    marginCond RC3 stAcc ∧
    estimation_phase RC3 30 stAcc = .ok (stAcc, -70) ∧
    ((-70 : ℚ) ≠ -100) := by
  refine ⟨by norm_num [stAcc], ?_, ?_, by norm_num⟩
  · norm_num [marginCond, AdB0at, CdB0at, RC3, stAcc, ladderList,
      MIN_LOG_OFFSET, M]
  · norm_num [estimation_phase, scan, stAcc, RC3, ladderList, MIN_LOG_OFFSET,
      M, pyDiv, listGet, bin_interp, biStart, biLoop, biBody, biGuard, fabs,
      List.range']

/-- C8 counterexample: the estimation phase is not a pure read of the
state; it overwrites the derived-statistics field `rmsdB` (as well as
`ActivityFactor` and the misspelled `DCleven`).  Starting from `stAcc`
with `rmsdB` set to 999, one run of the estimation phase returns the state
with `rmsdB` recomputed to 0. -/
theorem C8_counterexample :
    estimation_phase RC3 30 { stAcc with rmsdB := 999 } = .ok (stAcc, -70) ∧
    stAcc.rmsdB ≠ (999 : ℚ) := by
  constructor
  · norm_num [estimation_phase, scan, stAcc, RC3, ladderList, MIN_LOG_OFFSET,
      M, pyDiv, listGet, bin_interp, biStart, biLoop, biBody, biGuard, fabs,
      List.range']
  · norm_num [stAcc]

/-- C5 counterexample: the claim assigns the pair at index `j - 1` as the
upper bound pair of `bin_interp` and the pair at `j` as the lower bound
pair; the code passes the pair at `j` as `(upcount, upthr)` and the pair
at `j - 1` as `(lwcount, lwthr)`.  On `stAcc` under `RC5` the scan stops
at `j = 1` and the code's call converges (returning -69.45 dB after one
bisection step), while the claim's assignment drives the bisection away
from the root, so it yields no value within 30 iterations of fuel --- the
two assignments are observably different. -/
theorem C5_counterexample :
    stAcc.a.getD 0 0 ≠ 0 ∧
    ¬ marginCond RC5 stAcc ∧
    firstBracket RC5 stAcc = some 1 ∧
    estimation_phase RC5 30 stAcc = .ok (stAcc, -1389/20) ∧
    bin_interp 30 (AdBat RC5 stAcc 0) (AdBat RC5 stAcc 1) (CdBat RC5 stAcc 0)
      (CdBat RC5 stAcc 1) M (1/2) = none := by
  refine ⟨by norm_num [stAcc], ?_, ?_, ?_, ?_⟩
  · norm_num [marginCond, AdB0at, CdB0at, RC5, stAcc, ladderList,
      MIN_LOG_OFFSET, M]
  · norm_num [firstBracket, bracketHit, AdBat, CdBat, RC5, stAcc, ladderList,
      MIN_LOG_OFFSET, M, List.range', List.find?]
  · norm_num [estimation_phase, scan, stAcc, RC5, ladderList, MIN_LOG_OFFSET,
      M, pyDiv, listGet, bin_interp, biStart, biLoop, biBody, biGuard, fabs,
      List.range']
  · norm_num [AdBat, CdBat, RC5, stAcc, ladderList, MIN_LOG_OFFSET, M,
      bin_interp, biStart, biLoop, biBody, biGuard, fabs]

/-- Helper: a successful list read returns the `getD` value. -/
theorem listGet_ok {α : Type} (l : List α) (j : ℕ) (d : α)
    (h : j < l.length) : listGet l j = .ok (l.getD j d) := by
  unfold listGet
  rw [List.getElem?_eq_getElem h]
  simp [List.getD_eq_getElem?_getD, List.getElem?_eq_getElem h]

/-- Helper: `getD` after `set` at the same (in-range) index. -/
theorem getD_set_self {α : Type} (l : List α) (j : ℕ) (h : j < l.length)
    (v d : α) : (l.set j v).getD j d = v := by
  simp [List.getD_eq_getElem?_getD, List.getElem?_set_self h]

/-- Helper: `getD` after `set` at a different index. -/
theorem getD_set_ne {α : Type} {i k : ℕ} (h : i ≠ k) (l : List α)
    (v d : α) : (l.set i v).getD k d = l.getD k d := by
  simp [List.getD_eq_getElem?_getD, List.getElem?_set_ne h]

/-- Helper: in-range characterization of one pass of the threshold bank:
the two mutually exclusive `if` statements of the source amount to the
case analysis of the P.56 hangover rule. -/
theorem threshold_step_eq (I : ℤ) (st : SVP56_state) (j : ℕ)
    (hc : j < st.c.length) (ha : j < st.a.length) (hh : j < st.hang.length) :
    threshold_step I st j =
      .ok (if st.c.getD j 0 ≤ st.q then
             { st with a := st.a.set j (st.a.getD j 0 + 1),
                       hang := st.hang.set j 0 }
           else if st.hang.getD j 0 < I then
             { st with a := st.a.set j (st.a.getD j 0 + 1),
                       hang := st.hang.set j (st.hang.getD j 0 + 1) }
           else st) := by
  simp only [threshold_step]
  rw [listGet_ok st.c j 0 hc, listGet_ok st.a j 0 ha,
    listGet_ok st.hang j 0 hh]
  split_ifs with h1 h2
  · simp only [List.getD_eq_getElem?_getD] at h1 ⊢
    simp [h1]
  · simp only [List.getD_eq_getElem?_getD] at h1 h2 ⊢
    simp [h1, h2]
  · simp only [List.getD_eq_getElem?_getD] at h1 h2 ⊢
    simp [h1, h2]

/-- Helper: transfer of index bounds across a state whose three lists keep
their lengths. -/
theorem bounds_transfer (js : List ℕ) (st st' : SVP56_state)
    (hc : st'.c.length = st.c.length) (ha : st'.a.length = st.a.length)
    (hh : st'.hang.length = st.hang.length)
    (hbnd : ∀ i ∈ js, i < st.c.length ∧ i < st.a.length ∧ i < st.hang.length) :
    ∀ i ∈ js, i < st'.c.length ∧ i < st'.a.length ∧ i < st'.hang.length := by
  intro i hi
  rw [hc, ha, hh]
  exact hbnd i hi

/-- Helper: the threshold loop succeeds on any state whose lists cover all
visited indices, preserving thresholds, the envelope and the list
lengths. -/
theorem threshold_go_out : ∀ (js : List ℕ) (I : ℤ) (st : SVP56_state),
    (∀ i ∈ js, i < st.c.length ∧ i < st.a.length ∧ i < st.hang.length) →
    ∃ st1, threshold_go I js st = .ok st1 ∧
      st1.c = st.c ∧ st1.q = st.q ∧
      st1.a.length = st.a.length ∧ st1.hang.length = st.hang.length := by
  intro js
  induction js with
  | nil => exact fun I st _ => ⟨st, rfl, rfl, rfl, rfl, rfl⟩
  | cons j js ih =>
    intro I st hbnd
    obtain ⟨hc, ha, hh⟩ := hbnd j (by simp)
    have hbnd' : ∀ i ∈ js, i < st.c.length ∧ i < st.a.length ∧
        i < st.hang.length := fun i hi => hbnd i (by simp [hi])
    rw [threshold_go, threshold_step_eq I st j hc ha hh]
    split_ifs with h1 h2
    · obtain ⟨st1, hgo, e1, e2, e3, e4⟩ :=
        ih I { st with a := st.a.set j (st.a.getD j 0 + 1),
                       hang := st.hang.set j 0 }
          (bounds_transfer js st _ (by simp) (by simp) (by simp) hbnd')
      exact ⟨st1, hgo, e1, e2, by simpa using e3, by simpa using e4⟩
    · obtain ⟨st1, hgo, e1, e2, e3, e4⟩ :=
        ih I { st with a := st.a.set j (st.a.getD j 0 + 1),
                       hang := st.hang.set j (st.hang.getD j 0 + 1) }
          (bounds_transfer js st _ (by simp) (by simp) (by simp) hbnd')
      exact ⟨st1, hgo, e1, e2, by simpa using e3, by simpa using e4⟩
    · obtain ⟨st1, hgo, e1, e2, e3, e4⟩ := ih I st hbnd'
      exact ⟨st1, hgo, e1, e2, e3, e4⟩

/-- Helper: indices not visited by the threshold loop are untouched. -/
theorem threshold_go_frame : ∀ (js : List ℕ) (I : ℤ) (st : SVP56_state)
    (k : ℕ),
    (∀ i ∈ js, i < st.c.length ∧ i < st.a.length ∧ i < st.hang.length) →
    k ∉ js →
    ∀ st1, threshold_go I js st = .ok st1 →
      st1.a.getD k 0 = st.a.getD k 0 ∧
      st1.hang.getD k 0 = st.hang.getD k 0 := by
  intro js
  induction js with
  | nil =>
    intro I st k _ _ st1 h
    rw [threshold_go] at h
    cases h
    exact ⟨rfl, rfl⟩
  | cons j js ih =>
    intro I st k hbnd hk st1 h
    obtain ⟨hc, ha, hh⟩ := hbnd j (by simp)
    have hjk : j ≠ k := fun he => hk (by simp [he])
    have hk' : k ∉ js := fun hm => hk (by simp [hm])
    have hbnd' : ∀ i ∈ js, i < st.c.length ∧ i < st.a.length ∧
        i < st.hang.length := fun i hi => hbnd i (by simp [hi])
    rw [threshold_go, threshold_step_eq I st j hc ha hh] at h
    split_ifs at h with h1 h2
    · have hrec := ih I { st with a := st.a.set j (st.a.getD j 0 + 1),
                                  hang := st.hang.set j 0 } k
        (bounds_transfer js st _ (by simp) (by simp) (by simp) hbnd') hk' st1 h
      rw [hrec.1, hrec.2]
      constructor
      · exact getD_set_ne hjk st.a _ 0
      · exact getD_set_ne hjk st.hang _ 0
    · have hrec := ih I { st with a := st.a.set j (st.a.getD j 0 + 1),
                                  hang := st.hang.set j (st.hang.getD j 0 + 1) }
        k (bounds_transfer js st _ (by simp) (by simp) (by simp) hbnd') hk' st1 h
      rw [hrec.1, hrec.2]
      constructor
      · exact getD_set_ne hjk st.a _ 0
      · exact getD_set_ne hjk st.hang _ 0
    · exact ih I st k hbnd' hk' st1 h

/-- Helper: the entry a visited index ends up with, in terms of the
state the loop started from (the envelope `q` and the thresholds are
unchanged during the loop, and no other index's update interferes). -/
theorem threshold_go_at : ∀ (js : List ℕ) (I : ℤ) (st : SVP56_state)
    (j : ℕ),
    js.Nodup →
    (∀ i ∈ js, i < st.c.length ∧ i < st.a.length ∧ i < st.hang.length) →
    j ∈ js →
    ∀ st1, threshold_go I js st = .ok st1 →
      st1.a.getD j 0 = (if st.c.getD j 0 ≤ st.q then st.a.getD j 0 + 1
                        else if st.hang.getD j 0 < I then st.a.getD j 0 + 1
                        else st.a.getD j 0) ∧
      st1.hang.getD j 0 = (if st.c.getD j 0 ≤ st.q then 0
                           else if st.hang.getD j 0 < I then
                             st.hang.getD j 0 + 1
                           else st.hang.getD j 0) := by
  intro js
  induction js with
  | nil => intro I st j _ _ hj; exact absurd hj (by simp)
  | cons i js ih =>
    intro I st j hnd hbnd hj st1 h
    obtain ⟨hc, ha, hh⟩ := hbnd i (by simp)
    have hnd' : js.Nodup := (List.nodup_cons.mp hnd).2
    have hni : i ∉ js := (List.nodup_cons.mp hnd).1
    have hbnd' : ∀ x ∈ js, x < st.c.length ∧ x < st.a.length ∧
        x < st.hang.length := fun x hx => hbnd x (by simp [hx])
    rw [threshold_go, threshold_step_eq I st i hc ha hh] at h
    rcases List.mem_cons.mp hj with he | hm
    · subst he
      split_ifs at h with h1 h2
      · have hfr := threshold_go_frame js I
          { st with a := st.a.set j (st.a.getD j 0 + 1),
                    hang := st.hang.set j 0 } j
          (bounds_transfer js st _ (by simp) (by simp) (by simp) hbnd') hni st1 h
        rw [hfr.1, hfr.2]
        simp only [getD_set_self st.a j ha, getD_set_self st.hang j hh]
        rw [if_pos h1, if_pos h1]
        exact ⟨rfl, rfl⟩
      · have hfr := threshold_go_frame js I
          { st with a := st.a.set j (st.a.getD j 0 + 1),
                    hang := st.hang.set j (st.hang.getD j 0 + 1) } j
          (bounds_transfer js st _ (by simp) (by simp) (by simp) hbnd') hni st1 h
        rw [hfr.1, hfr.2]
        simp only [getD_set_self st.a j ha, getD_set_self st.hang j hh]
        rw [if_neg h1, if_pos h2, if_neg h1, if_pos h2]
        exact ⟨rfl, rfl⟩
      · have hfr := threshold_go_frame js I st j hbnd' hni st1 h
        rw [hfr.1, hfr.2, if_neg h1, if_neg h2, if_neg h1, if_neg h2]
        exact ⟨rfl, rfl⟩
    · have hij : i ≠ j := fun he => hni (he ▸ hm)
      split_ifs at h with h1 h2
      · have hrec := ih I { st with a := st.a.set i (st.a.getD i 0 + 1),
                                    hang := st.hang.set i 0 } j hnd'
          (bounds_transfer js st _ (by simp) (by simp) (by simp) hbnd') hm st1 h
        rw [hrec.1, hrec.2]
        simp [getD_set_ne hij, List.getElem?_set_ne hij]
      · have hrec := ih I { st with a := st.a.set i (st.a.getD i 0 + 1),
                                    hang := st.hang.set i (st.hang.getD i 0 + 1) }
          j hnd' (bounds_transfer js st _ (by simp) (by simp) (by simp) hbnd') hm st1 h
        rw [hrec.1, hrec.2]
        simp [getD_set_ne hij, List.getElem?_set_ne hij]
      · exact ih I st j hnd' hbnd' hm st1 h

/-- C10: a second call to `init_speech_voltmeter` on an already
initialized state extends the threshold, activity and hangover lists to 30
entries instead of resetting them to 15. -/
theorem C10_reinit_appends (f1 f2 : ℚ) :
    (initState f1).a.length = 15 ∧ (initState f1).c.length = 15 ∧
    (initState f1).hang.length = 15 ∧
    (init_speech_voltmeter (initState f1) f2).a.length = 30 ∧
    (init_speech_voltmeter (initState f1) f2).c.length = 30 ∧
    (init_speech_voltmeter (initState f1) f2).hang.length = 30 := by
  have h1 := init_speech_voltmeter_lengths freshState f1
  have h2 := init_speech_voltmeter_lengths (initState f1) f2
  have hf : freshState.a.length = 0 ∧ freshState.c.length = 0 ∧
      freshState.hang.length = 0 := ⟨rfl, rfl, rfl⟩
  have e1 : (initState f1).a.length = 15 := by
    rw [initState, h1.1, hf.1]
  have e2 : (initState f1).c.length = 15 := by
    rw [initState, h1.2.1, hf.2.1]
  have e3 : (initState f1).hang.length = 15 := by
    rw [initState, h1.2.2, hf.2.2]
  refine ⟨e1, e2, e3, ?_, ?_, ?_⟩
  · rw [h2.1, e1]
  · rw [h2.2.1, e2]
  · rw [h2.2.2, e3]

/-- Helper: division with a non-zero denominator succeeds. -/
theorem pyDiv_ok (x y : ℚ) (h : y ≠ 0) : pyDiv x y = .ok (x / y) := by
  simp [pyDiv, h]

/-- Helper: the three per-threshold lists of a once-initialized state have
15 entries. -/
theorem initState_len (f : ℚ) :
    (initState f).a.length = 15 ∧ (initState f).c.length = 15 ∧
    (initState f).hang.length = 15 := by
  refine ⟨?_, ?_, ?_⟩
  · rw [show (initState f).a = List.replicate 15 0 from rfl]; rfl
  · rw [initState_c]; rfl
  · rw [show (initState f).hang = List.replicate 15 (⌊H * f + 1/2⌋ : ℤ)
      from rfl]
    rfl

/-- Helper: the per-sample pass is the threshold loop run on the state
with updated extremes, sums and envelope; the three lists and the
post-update envelope feeding the loop are exposed. -/
theorem accumulate_sample_shape (g : ℚ) (I : ℤ) (st : SVP56_state) (x : ℚ) :
    ∃ st2, accumulate_sample g I st x =
        threshold_go I (List.range THRES_NO) st2 ∧
      st2.c = st.c ∧ st2.a = st.a ∧ st2.hang = st.hang ∧
      st2.q = g * st.q + (1 - g) * (g * st.p + (1 - g) * fabs x) := by
  simp only [accumulate_sample]
  split_ifs <;> exact ⟨_, rfl, rfl, rfl, rfl, rfl⟩

/-- Helper: on a state whose lists have at least `THRES_NO` entries the
per-sample pass cannot fail, and it preserves that property. -/
theorem accumulate_sample_out (g : ℚ) (I : ℤ) (st : SVP56_state) (x : ℚ)
    (hc : 15 ≤ st.c.length) (ha : 15 ≤ st.a.length)
    (hh : 15 ≤ st.hang.length) :
    ∃ st1, accumulate_sample g I st x = .ok st1 ∧
      15 ≤ st1.c.length ∧ 15 ≤ st1.a.length ∧ 15 ≤ st1.hang.length := by
  obtain ⟨st2, heq, ec, ea, eh, _⟩ := accumulate_sample_shape g I st x
  obtain ⟨st1, hgo, g1, _, g3, g4⟩ :=
    threshold_go_out (List.range THRES_NO) I st2 (by
      intro i hi
      have hi15 : i < 15 := by
        simpa [THRES_NO] using List.mem_range.mp hi
      rw [ec, ea, eh]
      omega)
  refine ⟨st1, by rw [heq]; exact hgo, ?_, ?_, ?_⟩
  · rw [g1, ec]; exact hc
  · rw [g3, ea]; exact ha
  · rw [g4, eh]; exact hh

/-- Helper: the accumulation loop never fails on states whose lists have
at least `THRES_NO` entries. -/
theorem accumulate_ok : ∀ (buf : List ℚ) (g : ℚ) (I : ℤ) (st : SVP56_state),
    15 ≤ st.c.length → 15 ≤ st.a.length → 15 ≤ st.hang.length →
    ∃ st1, accumulate g I st buf = .ok st1 := by
  intro buf
  induction buf with
  | nil => exact fun g I st _ _ _ => ⟨st, rfl⟩
  | cons x xs ih =>
    intro g I st hc ha hh
    obtain ⟨st2, hs, l1, l2, l3⟩ := accumulate_sample_out g I st x hc ha hh
    obtain ⟨st1, h1⟩ := ih g I st2 l1 l2 l3
    exact ⟨st1, by rw [accumulate, hs]; exact h1⟩

/-- C2: on any initialized state (the three per-threshold lists have at
least `THRES_NO = 15` entries, as installed by `init_speech_voltmeter`)
and any block of normalized samples, the per-sample accumulation phase of
`speech_voltmeter` raises no error, and the empty block leaves the state
unchanged.  (The envelope coefficient `g` and hangover length `I` are the
values the surrounding `speech_voltmeter` computes before the loop.) -/
theorem C2_accumulate_total (g : ℚ) (I : ℤ) (st : SVP56_state)
    (buf : List ℚ)
    (hc : 15 ≤ st.c.length) (ha : 15 ≤ st.a.length)
    (hh : 15 ≤ st.hang.length)
    (_hin : ∀ x ∈ buf, -1 ≤ x ∧ x ≤ 1) :
    accumulate g I st [] = .ok st ∧
    ∃ st1, accumulate g I st buf = .ok st1 :=
  ⟨rfl, accumulate_ok buf g I st hc ha hh⟩

/-- C2 witness: a concrete two-sample block on a freshly initialized
16 kHz state. -/
theorem C2_witness :
    accumulate (1/2) 3200 (initState 16000) [] = .ok (initState 16000) ∧
    ∃ st1, accumulate (1/2) 3200 (initState 16000) [1/2, -1/3] = .ok st1 :=
  C2_accumulate_total (1/2) 3200 (initState 16000) [1/2, -1/3]
    (le_of_eq (initState_len 16000).2.1.symm)
    (le_of_eq (initState_len 16000).1.symm)
    (le_of_eq (initState_len 16000).2.2.symm)
    (by
      intro x hx
      rcases List.mem_cons.mp hx with h | h
      · subst h; norm_num
      · rcases List.mem_cons.mp h with h2 | h2
        · subst h2; norm_num
        · exact absurd h2 (by simp))

/-- C4: for every sample processed and every threshold index `j`, with
`I = floor(H * sampleRate + 0.5)` and `q` the just-updated envelope: if
`q >= c[j]`, the activity count at `j` is incremented and the hangover
count reset to 0; otherwise, if the hangover count is below `I`, both are
incremented; otherwise both are unchanged.  The new pair at `j` is a
function of the old pair at `j` (plus `q`, `c[j]`, `I`) only, so the
per-threshold counters evolve independently. -/
theorem C4_threshold_hangover_rule (g : ℚ) (st : SVP56_state) (x : ℚ)
    (j : ℕ) (hj : j < 15) (hc : st.c.length = 15) (ha : st.a.length = 15)
    (hh : st.hang.length = 15) :
    ∃ st1, accumulate_sample g (⌊H * st.f + 1/2⌋ : ℤ) st x = .ok st1 ∧
      st1.a.getD j 0 =
        (if st.c.getD j 0 ≤ g * st.q + (1 - g) * (g * st.p + (1 - g) * fabs x)
         then st.a.getD j 0 + 1
         else if st.hang.getD j 0 < (⌊H * st.f + 1/2⌋ : ℤ) then
           st.a.getD j 0 + 1
         else st.a.getD j 0) ∧
      st1.hang.getD j 0 =
        (if st.c.getD j 0 ≤ g * st.q + (1 - g) * (g * st.p + (1 - g) * fabs x)
         then 0
         else if st.hang.getD j 0 < (⌊H * st.f + 1/2⌋ : ℤ) then
           st.hang.getD j 0 + 1
         else st.hang.getD j 0) := by
  obtain ⟨st2, heq, ec, ea, eh, eq2⟩ :=
    accumulate_sample_shape g (⌊H * st.f + 1/2⌋ : ℤ) st x
  have hbnd : ∀ i ∈ List.range THRES_NO,
      i < st2.c.length ∧ i < st2.a.length ∧ i < st2.hang.length := by
    intro i hi
    have hi15 : i < 15 := by simpa [THRES_NO] using List.mem_range.mp hi
    rw [ec, ea, eh]
    omega
  obtain ⟨st1, hgo, _, _, _, _⟩ :=
    threshold_go_out (List.range THRES_NO) (⌊H * st.f + 1/2⌋ : ℤ) st2 hbnd
  have hat := threshold_go_at (List.range THRES_NO) (⌊H * st.f + 1/2⌋ : ℤ)
    st2 j (List.nodup_range THRES_NO) hbnd
    (by simpa [THRES_NO] using List.mem_range.mpr (by simpa [THRES_NO] using hj))
    st1 hgo
  refine ⟨st1, by rw [heq]; exact hgo, ?_, ?_⟩
  · rw [hat.1, ec, ea, eh, eq2]
  · rw [hat.2, ec, eh, eq2]

/-- C4 witness: the hangover rule at index 3 for one concrete sample on a
freshly initialized 16 kHz state. -/
theorem C4_witness :
    ∃ st1, accumulate_sample (1/2) (⌊H * (initState 16000).f + 1/2⌋ : ℤ)
        (initState 16000) (1/2) = .ok st1 ∧
      st1.a.getD 3 0 =
        (if (initState 16000).c.getD 3 0 ≤
            (1/2) * (initState 16000).q +
              (1 - 1/2) * ((1/2) * (initState 16000).p + (1 - 1/2) * fabs (1/2))
         then (initState 16000).a.getD 3 0 + 1
         else if (initState 16000).hang.getD 3 0 <
             (⌊H * (initState 16000).f + 1/2⌋ : ℤ) then
           (initState 16000).a.getD 3 0 + 1
         else (initState 16000).a.getD 3 0) ∧
      st1.hang.getD 3 0 =
        (if (initState 16000).c.getD 3 0 ≤
            (1/2) * (initState 16000).q +
              (1 - 1/2) * ((1/2) * (initState 16000).p + (1 - 1/2) * fabs (1/2))
         then 0
         else if (initState 16000).hang.getD 3 0 <
             (⌊H * (initState 16000).f + 1/2⌋ : ℤ) then
           (initState 16000).hang.getD 3 0 + 1
         else (initState 16000).hang.getD 3 0) :=
  C4_threshold_hangover_rule (1/2) (initState 16000) (1/2) 3 (by norm_num)
    (initState_len 16000).2.1 (initState_len 16000).1
    (initState_len 16000).2.2


/-- Helper: what the bracket-scan loop returns, characterized by the first
index (if any) at which `a[j] != 0` and `AdB - CdB <= M`: nothing found
means the Silence sentinel with an untouched state; a hit at `j` (with
`a[j-1]` also non-zero so the dB computation at `j - 1` succeeds) makes
the result that of `bin_interp` called with the pair at `j` as the upper
bound pair and the pair at `j - 1` as the lower bound pair. -/
theorem scan_char (R : RealFuns) (fuel : ℕ) (LTL : ℚ) :
    ∀ (js : List ℕ) (st : SVP56_state),
    (∀ j ∈ js, j < st.a.length ∧ j < st.c.length ∧
      j - 1 < st.a.length ∧ j - 1 < st.c.length) →
    ((js.find? (bracketHit R st) = none →
        scan R fuel LTL js st = .ok (st, -100)) ∧
     (∀ j, js.find? (bracketHit R st) = some j →
        st.a.getD (j - 1) 0 ≠ 0 →
        (bin_interp fuel (AdBat R st j) (AdBat R st (j - 1)) (CdBat R st j)
            (CdBat R st (j - 1)) M (1/2) = none →
          scan R fuel LTL js st = .error .loopLimit) ∧
        (∀ v, bin_interp fuel (AdBat R st j) (AdBat R st (j - 1))
            (CdBat R st j) (CdBat R st (j - 1)) M (1/2) = some v →
          scan R fuel LTL js st =
            .ok ({ st with ActivityFactor := R.pow10 ((LTL - v) / 10) }, v)))) := by
  intro js
  induction js with
  | nil =>
    intro st _
    refine ⟨fun _ => rfl, fun j hj => ?_⟩
    simp at hj
  | cons j js ih =>
    intro st hbnd
    obtain ⟨ha1, hc1, ha0, hc0⟩ := hbnd j (by simp)
    have hbnd' : ∀ i ∈ js, i < st.a.length ∧ i < st.c.length ∧
        i - 1 < st.a.length ∧ i - 1 < st.c.length :=
      fun i hi => hbnd i (by simp [hi])
    by_cases hb : bracketHit R st j = true
    · have hfind : (j :: js).find? (bracketHit R st) = some j :=
        List.find?_cons_of_pos js hb
      have hb' : st.a.getD j 0 ≠ 0 ∧ AdBat R st j - CdBat R st j ≤ M := by
        simpa [bracketHit] using hb
      refine ⟨fun hn => by rw [hfind] at hn; exact Option.noConfusion hn, ?_⟩
      intro j' hj' ham
      have hj'' : j' = j := by
        rw [hfind] at hj'
        exact (Option.some.inj hj').symm
      subst hj''
      have hcast : ((st.a.getD j' 0 : ℤ) : ℚ) ≠ 0 := Int.cast_ne_zero.mpr hb'.1
      have hcast' : ((st.a.getD (j' - 1) 0 : ℤ) : ℚ) ≠ 0 :=
        Int.cast_ne_zero.mpr ham
      have hM : 10 * R.log10 (st.sq / ((st.a.getD j' 0 : ℤ) : ℚ) +
            MIN_LOG_OFFSET) -
          20 * R.log10 (st.c.getD j' 0 + MIN_LOG_OFFSET) ≤ M := by
        simpa [AdBat, CdBat] using hb'.2
      constructor
      · intro hnone
        have hnone' : bin_interp fuel
            (10 * R.log10 (st.sq / ((st.a.getD j' 0 : ℤ) : ℚ) + MIN_LOG_OFFSET))
            (10 * R.log10 (st.sq / ((st.a.getD (j' - 1) 0 : ℤ) : ℚ) +
              MIN_LOG_OFFSET))
            (20 * R.log10 (st.c.getD j' 0 + MIN_LOG_OFFSET))
            (20 * R.log10 (st.c.getD (j' - 1) 0 + MIN_LOG_OFFSET)) M (1/2) =
            none := by
          simpa [AdBat, CdBat] using hnone
        simp only [scan, listGet_ok st.a j' 0 ha1, listGet_ok st.c j' 0 hc1,
          listGet_ok st.a (j' - 1) 0 ha0, listGet_ok st.c (j' - 1) 0 hc0,
          pyDiv_ok _ _ hcast, pyDiv_ok _ _ hcast']
        rw [if_neg hb'.1, if_pos hM, hnone']
      · intro v hsome
        have hsome' : bin_interp fuel
            (10 * R.log10 (st.sq / ((st.a.getD j' 0 : ℤ) : ℚ) + MIN_LOG_OFFSET))
            (10 * R.log10 (st.sq / ((st.a.getD (j' - 1) 0 : ℤ) : ℚ) +
              MIN_LOG_OFFSET))
            (20 * R.log10 (st.c.getD j' 0 + MIN_LOG_OFFSET))
            (20 * R.log10 (st.c.getD (j' - 1) 0 + MIN_LOG_OFFSET)) M (1/2) =
            some v := by
          simpa [AdBat, CdBat] using hsome
        simp only [scan, listGet_ok st.a j' 0 ha1, listGet_ok st.c j' 0 hc1,
          listGet_ok st.a (j' - 1) 0 ha0, listGet_ok st.c (j' - 1) 0 hc0,
          pyDiv_ok _ _ hcast, pyDiv_ok _ _ hcast']
        rw [if_neg hb'.1, if_pos hM, hsome']
    · have hbF : ¬ (bracketHit R st j = true) := hb
      have hfind : (j :: js).find? (bracketHit R st) =
          js.find? (bracketHit R st) :=
        List.find?_cons_of_neg js (by simpa using hb)
      have hb' : ¬ (st.a.getD j 0 ≠ 0 ∧ AdBat R st j - CdBat R st j ≤ M) := by
        simpa [bracketHit] using hbF
      have hstep : scan R fuel LTL (j :: js) st = scan R fuel LTL js st := by
        by_cases haz : st.a.getD j 0 = 0
        · simp only [scan, listGet_ok st.a j 0 ha1]
          rw [if_pos haz]
        · have hM : ¬ (AdBat R st j - CdBat R st j ≤ M) := by tauto
          have hM' : ¬ (10 * R.log10 (st.sq / ((st.a.getD j 0 : ℤ) : ℚ) +
                MIN_LOG_OFFSET) -
              20 * R.log10 (st.c.getD j 0 + MIN_LOG_OFFSET) ≤ M) := by
            simpa [AdBat, CdBat] using hM
          have hcast : ((st.a.getD j 0 : ℤ) : ℚ) ≠ 0 := Int.cast_ne_zero.mpr haz
          simp only [scan, listGet_ok st.a j 0 ha1, listGet_ok st.c j 0 hc1,
            pyDiv_ok _ _ hcast]
          rw [if_neg haz, if_neg hM']
      rw [hstep, hfind]
      exact ih st hbnd'

/-- C5 (amended): for every non-silent accumulated state (and any
math-library valuation), the estimation phase scans `j = 1..14` in
increasing order and stops at the first `j` at which `a[j] != 0` and
`AdB_j - CdB_j <= M`; if no such `j` exists it returns the Silence
sentinel -100, and at a hit (with `a[j-1]` also non-zero) it returns the
value of `bin_interp` applied with the pair at `j` as the upper bound pair
and the pair at `j - 1` as the lower bound pair, margin `M` and tolerance
0.5 dB (propagating non-termination of that bisection). -/
theorem C5_bracket_scan (R : RealFuns) (fuel : ℕ) (st : SVP56_state)
    (ha : st.a.length = 15) (hc : st.c.length = 15) (hn : st.n ≠ 0)
    (h0 : st.a.getD 0 0 ≠ 0) :
    (firstBracket R st = none →
      ∃ st1, estimation_phase R fuel st = .ok (st1, -100)) ∧
    (∀ j, firstBracket R st = some j → st.a.getD (j - 1) 0 ≠ 0 →
      (bin_interp fuel (AdBat R st j) (AdBat R st (j - 1)) (CdBat R st j)
          (CdBat R st (j - 1)) M (1/2) = none →
        estimation_phase R fuel st = .error .loopLimit) ∧
      (∀ v, bin_interp fuel (AdBat R st j) (AdBat R st (j - 1))
          (CdBat R st j) (CdBat R st (j - 1)) M (1/2) = some v →
        ∃ st1, estimation_phase R fuel st = .ok (st1, v))) := by
  have hnq : ((st.n : ℕ) : ℚ) ≠ 0 := Nat.cast_ne_zero.mpr hn
  have hcast0 : ((st.a.getD 0 0 : ℤ) : ℚ) ≠ 0 := Int.cast_ne_zero.mpr h0
  have hsc := scan_char R fuel
    (10 * R.log10 (st.sq / (st.n : ℚ) + MIN_LOG_OFFSET))
    (List.range' 1 14)
    { st with DCleven := st.s / (st.n : ℚ),
              rmsdB := 10 * R.log10 (st.sq / (st.n : ℚ) + MIN_LOG_OFFSET) -
                st.refdB,
              ActivityFactor := 0 }
    (by
      intro i hi
      obtain ⟨hge, hlt⟩ := List.mem_range'_1.mp hi
      refine ⟨?_, ?_, ?_, ?_⟩
      · show i < st.a.length
        omega
      · show i < st.c.length
        omega
      · show i - 1 < st.a.length
        omega
      · show i - 1 < st.c.length
        omega)
  have hE : ∀ r, scan R fuel
      (10 * R.log10 (st.sq / (st.n : ℚ) + MIN_LOG_OFFSET))
      (List.range' 1 14)
      { st with DCleven := st.s / (st.n : ℚ),
                rmsdB := 10 * R.log10 (st.sq / (st.n : ℚ) + MIN_LOG_OFFSET) -
                  st.refdB,
                ActivityFactor := 0 } = r →
      estimation_phase R fuel st = r := by
    intro r hr
    have h015 : (0 : ℕ) < st.a.length := by omega
    have h015c : (0 : ℕ) < st.c.length := by omega
    simp only [estimation_phase, pyDiv_ok _ _ hnq, pyDiv_ok _ _ hcast0,
      listGet_ok st.a 0 0 h015, listGet_ok st.c 0 0 h015c]
    rw [if_neg h0]
    exact hr
  constructor
  · intro hnone
    exact ⟨_, hE _ (hsc.1 hnone)⟩
  · intro j hj ham
    have hsc2 := hsc.2 j hj ham
    exact ⟨fun hbi => hE _ (hsc2.1 hbi), fun v hbi => ⟨_, hE _ (hsc2.2 v hbi)⟩⟩

/-- C5 witness: on `stAcc` under `RC5` the scan stops at index 1 and the
code's `bin_interp` call (pair at `j` upper, pair at `j - 1` lower)
converges to -69.45 dB, which the estimation phase returns. -/
theorem C5_witness :
    ∃ st1, estimation_phase RC5 30 stAcc = .ok (st1, -1389/20) := by
  have h := (C5_bracket_scan RC5 30 stAcc rfl rfl (by norm_num [stAcc])
    (by norm_num [stAcc])).2 1
    (by
      norm_num [firstBracket, bracketHit, AdBat, CdBat, RC5, stAcc,
        ladderList, MIN_LOG_OFFSET, M, List.range', List.find?])
    (by norm_num [stAcc])
  exact h.2 (-1389/20)
    (by
      norm_num [AdBat, CdBat, RC5, stAcc, ladderList, MIN_LOG_OFFSET, M,
        bin_interp, biStart, biLoop, biBody, biGuard, fabs])


/-- Helper: a successful bracket scan writes at most `ActivityFactor`; all
other fields of the state it returns are those it was given. -/
theorem scan_frame (R : RealFuns) (fuel : ℕ) (LTL : ℚ) :
    ∀ (js : List ℕ) (st st1 : SVP56_state) (v : ℚ),
    scan R fuel LTL js st = .ok (st1, v) →
      st1.f = st.f ∧ st1.a = st.a ∧ st1.c = st.c ∧ st1.hang = st.hang ∧
      st1.n = st.n ∧ st1.s = st.s ∧ st1.sq = st.sq ∧ st1.p = st.p ∧
      st1.q = st.q ∧ st1.max = st.max ∧ st1.maxP = st.maxP ∧
      st1.maxN = st.maxN ∧ st1.refdB = st.refdB ∧
      st1.DClevel = st.DClevel ∧ st1.DCleven = st.DCleven ∧
      st1.rmsdB = st.rmsdB := by
  intro js
  induction js with
  | nil =>
    intro st st1 v h
    simp only [scan] at h
    cases h
    exact ⟨rfl, rfl, rfl, rfl, rfl, rfl, rfl, rfl, rfl, rfl, rfl, rfl, rfl,
      rfl, rfl, rfl⟩
  | cons j js ih =>
    intro st st1 v h
    simp only [scan] at h
    split at h
    · exact Except.noConfusion h
    · split at h
      · exact ih st st1 v h
      · split at h
        · exact Except.noConfusion h
        · split at h
          · exact Except.noConfusion h
          · split at h
            · split at h
              · exact Except.noConfusion h
              · split at h
                · exact Except.noConfusion h
                · split at h
                  · exact Except.noConfusion h
                  · split at h
                    · exact Except.noConfusion h
                    · cases h
                      exact ⟨rfl, rfl, rfl, rfl, rfl, rfl, rfl, rfl, rfl,
                        rfl, rfl, rfl, rfl, rfl, rfl, rfl⟩
            · exact ih st st1 v h

/-- C8 (amended): a successful run of the estimation phase writes only the
derived-statistics fields (`rmsdB`, `ActivityFactor`, and --- because of
the line-205 typo --- the stray attribute `DCleven` instead of
`DClevel`); every field read by the accumulation phase (`f`, `a`, `c`,
`hang`, `n`, `s`, `sq`, `p`, `q`, `max`, `maxP`, `maxN`, `refdB`, and
`DClevel` itself) is returned unchanged, so a running estimate taken
after each block does not affect subsequent accumulation; and the
estimate is a deterministic function of the state. -/
theorem C8_estimation_frame (R : RealFuns) (fuel : ℕ)
    (st st1 : SVP56_state) (v : ℚ)
    (h : estimation_phase R fuel st = .ok (st1, v)) :
    st1.f = st.f ∧ st1.a = st.a ∧ st1.c = st.c ∧ st1.hang = st.hang ∧
    st1.n = st.n ∧ st1.s = st.s ∧ st1.sq = st.sq ∧ st1.p = st.p ∧
    st1.q = st.q ∧ st1.max = st.max ∧ st1.maxP = st.maxP ∧
    st1.maxN = st.maxN ∧ st1.refdB = st.refdB ∧
    st1.DClevel = st.DClevel := by
  simp only [estimation_phase] at h
  split at h
  · exact Except.noConfusion h
  · split at h
    · exact Except.noConfusion h
    · split at h
      · exact Except.noConfusion h
      · split at h
        · cases h
          exact ⟨rfl, rfl, rfl, rfl, rfl, rfl, rfl, rfl, rfl, rfl, rfl, rfl,
            rfl, rfl⟩
        · split at h
          · exact Except.noConfusion h
          · split at h
            · exact Except.noConfusion h
            · obtain ⟨e1, e2, e3, e4, e5, e6, e7, e8, e9, e10, e11, e12, e13,
                e14, _, _⟩ := scan_frame R fuel _ (List.range' 1 14) _ st1 v h
              exact ⟨e1, e2, e3, e4, e5, e6, e7, e8, e9, e10, e11, e12, e13,
                e14⟩

/-- C8 witness: the frame property at the concrete run of the estimation
phase on `stAcc` under `RC3`. -/
theorem C8_witness :
    stAcc.f = stAcc.f ∧ stAcc.a = stAcc.a ∧ stAcc.c = stAcc.c ∧
    stAcc.hang = stAcc.hang ∧ stAcc.n = stAcc.n ∧ stAcc.s = stAcc.s ∧
    stAcc.sq = stAcc.sq ∧ stAcc.p = stAcc.p ∧ stAcc.q = stAcc.q ∧
    stAcc.max = stAcc.max ∧ stAcc.maxP = stAcc.maxP ∧
    stAcc.maxN = stAcc.maxN ∧ stAcc.refdB = stAcc.refdB ∧
    stAcc.DClevel = stAcc.DClevel :=
  C8_estimation_frame RC3 30 stAcc stAcc (-70)
    (by
      norm_num [estimation_phase, scan, stAcc, RC3, ladderList,
        MIN_LOG_OFFSET, M, pyDiv, listGet, bin_interp, biStart, biLoop,
        biBody, biGuard, fabs, List.range'])

end SVP56
